import Mathlib

/-!
Verification of the MHSolver detection-and-execution pipeline.

The definitions below are a shallow embedding of the JavaScript sources:
  - src/solver.js   (signature extraction, classification, presence
    validation, cell capture, key-sequence execution, configuration)
  - src/main.js     (the startSolver session orchestration)
  - the template/heuristic variants appended to those files (the
    correction-map variant of detectCellLetter).

JavaScript numbers are modelled as exact rationals; pixel buffers as a
byte-indexed function together with width, height and channel count.
-/

attribute [local semireducible] Rat.add Rat.mul Rat.inv Rat.ofScientific Rat.sub

namespace MHSolver

/-- The seven glyph symbols of the alphabet, plus the Unknown result
written as a question mark in the source. -/
inductive Letter
  | Q
  | W
  | E
  | R
  | A
  | S
  | D
  | unknown
deriving DecidableEq, Repr

/-- The signature record produced by createLetterSignature in
src/solver.js: foreground pixel count, bounding-box aspect ratio, the
four mass fractions and the center-hole flag. -/
structure Signature where
  cyanPixels : Nat
  pixelCount : Nat
  aspectRat : ℚ
  topHeavy : ℚ
  bottomHeavy : ℚ
  leftHeavy : ℚ
  rightHeavy : ℚ
  centerHole : Bool
deriving DecidableEq, Repr

/-- Foreground (cyan) pixel rule of createLetterSignature
(src/solver.js lines 267-272). -/
def isCyanLetter (r g b : Nat) : Bool :=
  decide (r < 120) && decide (g > 100) && decide (b > 120) && decide (g + b > 230)

/-- Minimum x coordinate of a pixel list (Math.min over the xs). -/
def minXOf (bp : List (Nat × Nat)) : Nat := ((bp.map Prod.fst).min?).getD 0

/-- Maximum x coordinate of a pixel list (Math.max over the xs). -/
def maxXOf (bp : List (Nat × Nat)) : Nat := ((bp.map Prod.fst).max?).getD 0

/-- Minimum y coordinate of a pixel list. -/
def minYOf (bp : List (Nat × Nat)) : Nat := ((bp.map Prod.snd).min?).getD 0

/-- Maximum y coordinate of a pixel list. -/
def maxYOf (bp : List (Nat × Nat)) : Nat := ((bp.map Prod.snd).max?).getD 0

/-- letterWidth of src/solver.js line 312: the inclusive pixel width
maxX - minX + 1 of the foreground bounding box. -/
def boundingBoxWidth (bp : List (Nat × Nat)) : Nat := maxXOf bp - minXOf bp + 1

/-- letterHeight of src/solver.js line 313. -/
def boundingBoxHeight (bp : List (Nat × Nat)) : Nat := maxYOf bp - minYOf bp + 1

/-- centerX of src/solver.js line 315: (minX + maxX) / 2. -/
def centerXOf (bp : List (Nat × Nat)) : ℚ := ((minXOf bp : ℚ) + (maxXOf bp : ℚ)) / 2

/-- centerY of src/solver.js line 316. -/
def centerYOf (bp : List (Nat × Nat)) : ℚ := ((minYOf bp : ℚ) + (maxYOf bp : ℚ)) / 2

/-- centerRadius of src/solver.js line 331: a quarter of the smaller
bounding-box side. -/
def centerRadiusOf (bp : List (Nat × Nat)) : ℚ :=
  (min (boundingBoxWidth bp) (boundingBoxHeight bp) : ℚ) / 4

/-- centerPixels of src/solver.js lines 332-335: foreground pixels whose
x and y distances from the box center are both below centerRadius (an
axis-aligned square neighborhood). -/
def squareCenterCount (bp : List (Nat × Nat)) : Nat :=
  (bp.filter (fun p =>
    decide (|(p.1 : ℚ) - centerXOf bp| < centerRadiusOf bp) &&
    decide (|(p.2 : ℚ) - centerYOf bp| < centerRadiusOf bp))).length

/-- The neutral below-floor signature of src/solver.js lines 293-304. -/
def neutralSignature (n : Nat) : Signature :=
  { cyanPixels := n
    pixelCount := n
    aspectRat := 1
    topHeavy := 0.5
    bottomHeavy := 0.5
    leftHeavy := 0.5
    rightHeavy := 0.5
    centerHole := false }

/-- Body of createLetterSignature (src/solver.js lines 292-349) as a
function of the foreground pixel list gathered by the scan. -/
def signatureOfPixels (bp : List (Nat × Nat)) : Signature :=
  if bp.length < 80 then
    neutralSignature bp.length
  else
    let letterWidth := boundingBoxWidth bp
    let letterHeight := boundingBoxHeight bp
    let aspect : ℚ := (letterWidth : ℚ) / (letterHeight : ℚ)
    let centerX := centerXOf bp
    let centerY := centerYOf bp
    let topPixels := (bp.filter (fun p => decide ((p.2 : ℚ) < centerY))).length
    let bottomPixels := (bp.filter (fun p => decide (centerY ≤ (p.2 : ℚ)))).length
    let leftPixels := (bp.filter (fun p => decide ((p.1 : ℚ) < centerX))).length
    let rightPixels := (bp.filter (fun p => decide (centerX ≤ (p.1 : ℚ)))).length
    let total := bp.length
    { cyanPixels := bp.length
      pixelCount := bp.length
      aspectRat := aspect
      topHeavy := (topPixels : ℚ) / (total : ℚ)
      bottomHeavy := (bottomPixels : ℚ) / (total : ℚ)
      leftHeavy := (leftPixels : ℚ) / (total : ℚ)
      rightHeavy := (rightPixels : ℚ) / (total : ℚ)
      centerHole := decide ((squareCenterCount bp : ℚ) < (total : ℚ) * 0.15) }

/-- matchSignatureToLetter of src/solver.js lines 166-250: the fixed
decision tree over signature features. -/
def matchSignatureToLetter (sig : Signature) : Letter :=
  if sig.cyanPixels < 50 then .unknown
  else if sig.aspectRat > 2.0 ∨ sig.aspectRat < 0.15 then
    if sig.leftHeavy > 0.65 then .E
    else if sig.leftHeavy > 0.55 then .D
    else .S
  else if sig.aspectRat > 1.30 then .W
  else if sig.centerHole then
    if sig.aspectRat < 0.85 ∧ sig.leftHeavy > 0.60 then .D
    else if sig.aspectRat > 0.65 ∧ sig.aspectRat < 0.90 ∧
            |sig.leftHeavy - sig.rightHeavy| < 0.15 then .Q
    else .A
  else if sig.aspectRat < 1.1 ∧ sig.leftHeavy > 0.60 then .E
  else if sig.aspectRat < 1.1 ∧ sig.leftHeavy > 0.54 ∧ sig.leftHeavy ≤ 0.60 then .R
  else if sig.aspectRat > 0.70 ∧ sig.aspectRat < 1.25 ∧
          |sig.leftHeavy - sig.rightHeavy| < 0.18 then .S
  else if sig.aspectRat > 1.25 then .W
  else if sig.leftHeavy > 0.58 then .E
  else if sig.leftHeavy > 0.52 then (if sig.centerHole then .D else .R)
  else .S

/-- A decoded raw pixel buffer: width, height, channel count, and the
byte at each flat index (out-of-range indices read 0, matching how the
source never reads past data.length). -/
structure Image where
  width : Nat
  height : Nat
  channels : Nat
  data : Nat → Nat

/-- The pixel scan of createLetterSignature (src/solver.js lines
257-282): row-major traversal collecting the (x, y) of every foreground
pixel. -/
def brightPixelsOf (img : Image) : List (Nat × Nat) :=
  (List.range img.height).flatMap (fun y =>
    (List.range img.width).filterMap (fun x =>
      let i := (y * img.width + x) * img.channels
      if isCyanLetter (img.data i) (img.data (i + 1)) (img.data (i + 2)) then
        some (x, y)
      else none))

/-- createLetterSignature of src/solver.js lines 253-349. -/
def createLetterSignature (img : Image) : Signature :=
  signatureOfPixels (brightPixelsOf img)

/-- detectCellLetter of src/solver.js lines 128-163: classify one cell
buffer; fewer than 50 foreground pixels yields Unknown before the
classifier is consulted. -/
def detectCellLetterRaw (cell : Image) : Letter :=
  let signature := createLetterSignature cell
  if signature.cyanPixels < 50 then .unknown
  else matchSignatureToLetter signature

/-- The static letterMap of the correction-map variant of
detectCellLetter (src/main.js lines 690-697) and of detectLetter
(src/unnamed/part_000 lines 566-572). -/
def letterMap : Letter → Option Letter
  | .A => some .D
  | .S => some .A
  | .D => some .E
  | .Q => some .R
  | .W => some .W
  | _ => none

/-- letterMap[detected] || detected (src/main.js line 699): symbols with
no mapping entry pass through unchanged. -/
def applyCorrection (l : Letter) : Letter := (letterMap l).getD l

/-- detectCellLetter of the correction-map variant (src/main.js lines
666-709): identical to detectCellLetterRaw except that the classifier
output is passed through the letterMap. -/
def detectCellLetterCorrected (cell : Image) : Letter :=
  let signature := createLetterSignature cell
  if signature.cyanPixels < 50 then .unknown
  else applyCorrection (matchSignatureToLetter signature)

/-- Keys of the RESOLUTION_CONFIGS table in src/solver.js; strings other
than the two presets all behave alike, so they share one constructor. -/
inductive Resolution
  | r1920x1080
  | r2560x1440
  | other
deriving DecidableEq, Repr

/-- One entry of RESOLUTION_CONFIGS (src/solver.js lines 24-37). -/
structure ResConfig where
  cellSize : Nat
  cellSpacing : Nat
  offsetX : Int
  offsetY : Int
deriving DecidableEq, Repr

/-- RESOLUTION_CONFIGS of src/solver.js lines 24-37. -/
def RESOLUTION_CONFIGS : Resolution → Option ResConfig
  | .r1920x1080 => some ⟨100, 95, -108, -88⟩
  | .r2560x1440 => some ⟨133, 127, -144, -117⟩
  | .other => none

/-- The module-level config object of src/solver.js lines 39-44. -/
structure Config where
  baseDelay : ℚ
  delayVariance : ℚ
  resolution : Resolution
  cellSize : Nat
  cellSpacing : Nat
  offsetX : Int
  offsetY : Int
deriving DecidableEq, Repr

/-- The initial config: delays plus the 1920x1080 preset spread in. -/
def defaultConfig : Config :=
  { baseDelay := 150
    delayVariance := 50
    resolution := .r1920x1080
    cellSize := 100
    cellSpacing := 95
    offsetX := -108
    offsetY := -88 }

/-- Screen dimensions chosen by getTopLeftCellPosition (src/solver.js
lines 53-62): defaults to 1920x1080 for any unrecognized resolution. -/
def screenDims : Resolution → Nat × Nat
  | .r2560x1440 => (2560, 1440)
  | _ => (1920, 1080)

/-- getTopLeftCellPosition of src/solver.js lines 49-78. Math.floor on
the possibly negative half-difference is Int.fdiv; Math.max 0 is
Int.toNat. -/
def getTopLeftCellPosition (cfg : Config) : Nat × Nat :=
  let dims := screenDims cfg.resolution
  let topLeftX := Int.fdiv ((dims.1 : Int) - (cfg.cellSize : Int)) 2 + cfg.offsetX
  let topLeftY := Int.fdiv ((dims.2 : Int) - (cfg.cellSize : Int)) 2 + cfg.offsetY
  (topLeftX.toNat, topLeftY.toNat)

/-- sharp .extract: crops a sub-rectangle, failing (throwing in the
source) when the region exceeds the frame. -/
def extractRegion (img : Image) (left top w h : Nat) : Option Image :=
  if left + w ≤ img.width ∧ top + h ≤ img.height then
    some
      { width := w
        height := h
        channels := img.channels
        data := fun i =>
          let p := i / img.channels
          let c := i % img.channels
          let x := p % w
          let y := p / w
          img.data (((top + y) * img.width + (left + x)) * img.channels + c) }
  else none

/-- captureSingleCell of src/solver.js lines 93-111 together with
getCellPosition (lines 81-90). -/
def captureSingleCell (cfg : Config) (img : Image) (row col : Nat)
    (topLeft : Nat × Nat) : Option Image :=
  extractRegion img (topLeft.1 + col * cfg.cellSpacing)
    (topLeft.2 + row * cfg.cellSpacing) cfg.cellSize cfg.cellSize

/-- The (row, col) traversal order of the nested loops in detectLetters
(src/solver.js lines 449-461): row-major over the 3x3 grid. -/
def rowMajorOrder : List (Nat × Nat) :=
  (List.range 3).flatMap (fun row => (List.range 3).map (fun col => (row, col)))

/-- detectLetters of src/solver.js lines 440-488: capture each cell in
row-major order and classify it; a failed capture throws out of the
whole detection (none). Debug-image saving is I/O only and is omitted. -/
def detectLetters (cfg : Config) (img : Image) : Option (List Letter) :=
  let topLeft := getTopLeftCellPosition cfg
  rowMajorOrder.mapM (fun rc =>
    (captureSingleCell cfg img rc.1 rc.2 topLeft).map detectCellLetterRaw)

/-- detectLetters as it appears in the correction-map variant: the same
loop, with the letterMap applied to the classification of each cell. -/
def detectLettersCorrected (cfg : Config) (img : Image) : Option (List Letter) :=
  let topLeft := getTopLeftCellPosition cfg
  rowMajorOrder.mapM (fun rc =>
    (captureSingleCell cfg img rc.1 rc.2 topLeft).map detectCellLetterCorrected)

/-- Absolute difference of two bytes (Math.abs of the difference). -/
def absDiff (a b : Nat) : Nat := max a b - min a b

/-- validateMinigamePresent of src/solver.js lines 352-437: classify
every pixel of the grid rectangle into three color classes and demand
all three fractions clear their thresholds. A failed extraction is
caught and returns false. -/
def validateMinigamePresent (cfg : Config) (fullScreenshot : Image) : Bool :=
  let topLeftPos := getTopLeftCellPosition cfg
  let gridSize := cfg.cellSpacing * 2 + cfg.cellSize
  match extractRegion fullScreenshot topLeftPos.1 topLeftPos.2 gridSize gridSize with
  | none => false
  | some grid =>
    let pixels := (List.range (grid.width * grid.height)).map (fun p =>
      let i := p * grid.channels
      (grid.data i, grid.data (i + 1), grid.data (i + 2)))
    let cyanPixelCount := (pixels.filter (fun rgb =>
      let brightness := rgb.1 + rgb.2.1 + rgb.2.2
      let colorDeviation :=
        absDiff rgb.1 rgb.2.1 + absDiff rgb.1 rgb.2.2 + absDiff rgb.2.1 rgb.2.2
      decide (rgb.2.2 > 100) && decide (rgb.2.1 > 70) && decide (rgb.1 < 140) &&
        decide (brightness > 230) && decide (colorDeviation > 80))).length
    let darkBluePixelCount := (pixels.filter (fun rgb =>
      decide (rgb.2.2 > 20) && decide (rgb.2.2 < 80) && decide (rgb.1 < 50) &&
        decide (rgb.2.1 < 70))).length
    let gridBorderPixelCount := (pixels.filter (fun rgb =>
      decide (rgb.2.2 > 90) && decide (rgb.2.2 < 220) && decide (rgb.2.1 > 70) &&
        decide (rgb.2.1 < 180) && decide (rgb.1 < 140))).length
    let totalPixels := grid.width * grid.height
    let cyanPercentage : ℚ := (cyanPixelCount : ℚ) / (totalPixels : ℚ) * 100
    let darkBluePercentage : ℚ := (darkBluePixelCount : ℚ) / (totalPixels : ℚ) * 100
    let borderPercentage : ℚ := (gridBorderPixelCount : ℚ) / (totalPixels : ℚ) * 100
    let hasLetters := decide (cyanPercentage > 0.2) && decide (cyanPixelCount > 150)
    let hasBackground := decide (darkBluePercentage > 25)
    let hasGridLines := decide (borderPercentage > 1.0)
    hasLetters && hasBackground && hasGridLines

/-- executeKeySequence of src/solver.js lines 514-551, indexed from i:
before every position the cancellation flag is read (the value read at
check i is flag i); a set flag throws (second component true), an
Unknown letter is skipped, otherwise the key-pressed notification
(index, letter) is emitted. -/
def execAux (flag : Nat → Bool) : List Letter → Nat → List (Nat × Letter) × Bool
  | [], _ => ([], false)
  | l :: rest, i =>
    if flag i then ([], true)
    else if l = .unknown then execAux flag rest (i + 1)
    else
      let r := execAux flag rest (i + 1)
      ((i, l) :: r.1, r.2)

/-- executeKeySequence started at position 0. -/
def executeKeySequence (letters : List Letter) (flag : Nat → Bool) :
    List (Nat × Letter) × Bool :=
  execAux flag letters 0

/-- Outcome of one startSolver run (src/main.js lines 156-225): a failed
cell capture throws; more than 5 Unknown cells throws with the count; a
cancellation observed during execution throws after the listed keys were
already emitted; otherwise the run completes with the emitted keys. -/
inductive SolverOutcome
  | errorCapture
  | errorTooManyUnknown (count : Nat)
  | errorStopped (events : List (Nat × Letter))
  | complete (events : List (Nat × Letter))
deriving DecidableEq, Repr

/-- The solver-status value the UI is left with (src/main.js lines
209-224): the catch block reports every thrown error, including the
cancellation throw, as status error. -/
inductive Status
  | complete
  | error
  | stopped
deriving DecidableEq, Repr

/-- Terminal solver-status sent by startSolver itself. -/
def finalStatus : SolverOutcome → Status
  | .complete _ => .complete
  | _ => .error

/-- Key-pressed notifications emitted during a run. -/
def emittedKeys : SolverOutcome → List (Nat × Letter)
  | .complete events => events
  | .errorStopped events => events
  | _ => []

/-- startSolver of src/main.js lines 156-225 from the point the frame
has been captured. The presence verdict is computed but unused: the
abort on a negative verdict (lines 171-174) is commented out in the
source. -/
def startSolver (cfg : Config) (frame : Image) (flag : Nat → Bool) : SolverOutcome :=
  let _isMinigamePresent := validateMinigamePresent cfg frame
  match detectLetters cfg frame with
  | none => .errorCapture
  | some letters =>
    let unknownCount := (letters.filter (fun l => l = .unknown)).length
    if unknownCount > 5 then .errorTooManyUnknown unknownCount
    else
      let r := executeKeySequence letters flag
      if r.2 then .errorStopped r.1 else .complete r.1

/-- startSolver with the presence-validation call removed; used to state
that the presence verdict cannot influence the run. -/
def solverAfterPresence (cfg : Config) (frame : Image) (flag : Nat → Bool) :
    SolverOutcome :=
  match detectLetters cfg frame with
  | none => .errorCapture
  | some letters =>
    let unknownCount := (letters.filter (fun l => l = .unknown)).length
    if unknownCount > 5 then .errorTooManyUnknown unknownCount
    else
      let r := executeKeySequence letters flag
      if r.2 then .errorStopped r.1 else .complete r.1

/-- A partial update object passed to updateConfig: absent fields are
none. -/
structure NewConfig where
  baseDelay : Option ℚ := none
  delayVariance : Option ℚ := none
  resolution : Option Resolution := none
  cellSize : Option Nat := none
  cellSpacing : Option Nat := none
  offsetX : Option Int := none
  offsetY : Option Int := none

/-- JavaScript truthiness of a possibly absent number: undefined and 0
are both falsy. -/
def truthyInt : Option Int → Bool
  | none => false
  | some v => decide (v ≠ 0)

/-- updateConfig of src/solver.js lines 564-579: spread the update over
the config, then, when a known resolution was supplied, apply its preset
cell geometry and overwrite the offsets unless the update carried a
truthy offset. -/
def updateConfig (cfg : Config) (n : NewConfig) : Config :=
  let merged : Config :=
    { baseDelay := n.baseDelay.getD cfg.baseDelay
      delayVariance := n.delayVariance.getD cfg.delayVariance
      resolution := n.resolution.getD cfg.resolution
      cellSize := n.cellSize.getD cfg.cellSize
      cellSpacing := n.cellSpacing.getD cfg.cellSpacing
      offsetX := n.offsetX.getD cfg.offsetX
      offsetY := n.offsetY.getD cfg.offsetY }
  match n.resolution with
  | none => merged
  | some res =>
    match RESOLUTION_CONFIGS res with
    | none => merged
    | some resConfig =>
      { merged with
        cellSize := resConfig.cellSize
        cellSpacing := resConfig.cellSpacing
        offsetX := if truthyInt n.offsetX then merged.offsetX else resConfig.offsetX
        offsetY := if truthyInt n.offsetY then merged.offsetY else resConfig.offsetY }

/-- Modelled from the spec (section 4.4): the number of foreground
pixels within a Euclidean radius of a quarter of the smaller bounding
box side around the box center, the reading the spec gives of the hole
test, stated for comparison with squareCenterCount, the test the code
performs. -/
def centerDiscCountSpec (bp : List (Nat × Nat)) : Nat :=
  (bp.filter (fun p =>
    decide (((p.1 : ℚ) - centerXOf bp) * ((p.1 : ℚ) - centerXOf bp) +
        ((p.2 : ℚ) - centerYOf bp) * ((p.2 : ℚ) - centerYOf bp) <
      centerRadiusOf bp * centerRadiusOf bp))).length

/-! ### Concrete inputs used by the counterexamples and witnesses -/

/-- A small cell geometry reachable through updateConfig: 10-pixel
cells, 10-pixel spacing, offsets placing the grid at the frame origin
(the 1920x1080 screen centering of getTopLeftCellPosition gives
floor((1920-10)/2) - 955 = 0 and floor((1080-10)/2) - 535 = 0). -/
def cfgSmall : Config :=
  { baseDelay := 150
    delayVariance := 50
    resolution := .r1920x1080
    cellSize := 10
    cellSpacing := 10
    offsetX := -955
    offsetY := -535 }

/-- A 30x30 RGB frame that is uniformly cyan (0, 255, 255): every pixel
of every cell is foreground, yet the dark-background fraction is zero,
so presence validation reports the puzzle absent. -/
def frameCyanAll : Image :=
  { width := 30, height := 30, channels := 3
    data := fun i => if i % 3 = 0 then 0 else 255 }

/-- A 30x30 RGB frame whose top 10 rows are cyan and the rest black:
under cfgSmall the three row-0 cells classify as S and the six
remaining cells have no foreground at all. -/
def frameTopCyan : Image :=
  { width := 30, height := 30, channels := 3
    data := fun i => if i / 3 / 30 < 10 then (if i % 3 = 0 then 0 else 255) else 0 }

/-- A 10x10 RGB cell whose first 60 scan pixels are cyan: its foreground
count 60 sits between the Unknown threshold (50) and the neutral
signature floor (80). -/
def cellImg60 : Image :=
  { width := 10, height := 10, channels := 3
    data := fun i => if i / 3 < 60 then (if i % 3 = 0 then 0 else 255) else 0 }

set_option maxRecDepth 100000

/-- The letters detected from frameTopCyan under cfgSmall: three S cells
and six empty cells. -/
def letters6 : List Letter :=
  [.S, .S, .S, .unknown, .unknown, .unknown, .unknown, .unknown, .unknown]

/-- The cancellation flag of a run stopped after three emitted keys: the
reads at checks 0, 1, 2 see false, every later read sees true. -/
def flagAfter3 : Nat → Bool := fun i => decide (3 ≤ i)

/-- A never-set cancellation flag. -/
def flagNever : Nat → Bool := fun _ => false

/-- An 80-pixel foreground set filling a 10-wide, 8-tall block. -/
def bpW : List (Nat × Nat) := (List.range 80).map (fun k => (k % 10, k / 10))

/-- A 100-pixel foreground set with bounding box 0..40 in both axes
(center (20, 20), centerRadius 41/4): 40 pixels lie inside the
axis-aligned center square tested by the code but outside the Euclidean
center disc described by the spec,
and the remaining 60 pixels sit on the box border. -/
def bpC6 : List (Nat × Nat) :=
  ([8, 9, 10].flatMap (fun a => [8, 9, 10].flatMap (fun b =>
    [(20 + a, 20 + b), (20 + a, 20 - b), (20 - a, 20 + b), (20 - a, 20 - b)]))) ++
  [(30, 23), (30, 17), (10, 23), (10, 17)] ++
  ((List.range 20).map (fun k => (0, k))) ++
  ((List.range 20).map (fun k => (40, k))) ++
  ((List.range 10).map (fun k => (k, 40))) ++
  ((List.range 10).map (fun k => (k + 1, 0)))

/-! ### Helper lemmas about the signature extractor -/

theorem signatureOfPixels_cyanPixels (bp : List (Nat × Nat)) :
    (signatureOfPixels bp).cyanPixels = bp.length := by
  unfold signatureOfPixels
  by_cases h : bp.length < 80
  · rw [if_pos h]; rfl
  · rw [if_neg h]

theorem signatureOfPixels_neutral (bp : List (Nat × Nat)) (h : bp.length < 80) :
    signatureOfPixels bp = neutralSignature bp.length := by
  unfold signatureOfPixels
  rw [if_pos h]

theorem signatureOfPixels_aspect (bp : List (Nat × Nat)) (h : ¬ bp.length < 80) :
    (signatureOfPixels bp).aspectRat =
      (boundingBoxWidth bp : ℚ) / (boundingBoxHeight bp : ℚ) := by
  unfold signatureOfPixels
  rw [if_neg h]

theorem signatureOfPixels_centerHole (bp : List (Nat × Nat)) (h : ¬ bp.length < 80) :
    (signatureOfPixels bp).centerHole =
      decide ((squareCenterCount bp : ℚ) < (bp.length : ℚ) * 0.15) := by
  unfold signatureOfPixels
  rw [if_neg h]

theorem signatureOfPixels_leftHeavy (bp : List (Nat × Nat)) (h : ¬ bp.length < 80) :
    (signatureOfPixels bp).leftHeavy =
      ((bp.filter (fun p => decide ((p.1 : ℚ) < centerXOf bp))).length : ℚ) /
        (bp.length : ℚ) := by
  unfold signatureOfPixels
  rw [if_neg h]

theorem signatureOfPixels_rightHeavy (bp : List (Nat × Nat)) (h : ¬ bp.length < 80) :
    (signatureOfPixels bp).rightHeavy =
      ((bp.filter (fun p => decide (centerXOf bp ≤ (p.1 : ℚ)))).length : ℚ) /
        (bp.length : ℚ) := by
  unfold signatureOfPixels
  rw [if_neg h]

theorem signatureOfPixels_topHeavy (bp : List (Nat × Nat)) (h : ¬ bp.length < 80) :
    (signatureOfPixels bp).topHeavy =
      ((bp.filter (fun p => decide ((p.2 : ℚ) < centerYOf bp))).length : ℚ) /
        (bp.length : ℚ) := by
  unfold signatureOfPixels
  rw [if_neg h]

theorem signatureOfPixels_bottomHeavy (bp : List (Nat × Nat)) (h : ¬ bp.length < 80) :
    (signatureOfPixels bp).bottomHeavy =
      ((bp.filter (fun p => decide (centerYOf bp ≤ (p.2 : ℚ)))).length : ℚ) /
        (bp.length : ℚ) := by
  unfold signatureOfPixels
  rw [if_neg h]

/-- The two strict and non-strict threshold filters partition a list. -/
theorem length_filter_partition {α : Type} (l : List α) (f : α → ℚ) (c : ℚ) :
    (l.filter (fun a => decide (f a < c))).length +
      (l.filter (fun a => decide (c ≤ f a))).length = l.length := by
  induction l with
  | nil => rfl
  | cons a t ih =>
    by_cases h : f a < c
    · have h2 : ¬ c ≤ f a := not_le.mpr h
      simp [List.filter_cons, h, h2]
      omega
    · have h2 : c ≤ f a := not_lt.mp h
      simp [List.filter_cons, h, h2]
      omega

/-- The strict/non-strict x-threshold filters of the left and right
mass counts partition the pixel list. -/
theorem left_right_partition (bp : List (Nat × Nat)) (c : ℚ) :
    (bp.filter (fun p => decide ((p.1 : ℚ) < c))).length +
      (bp.filter (fun p => decide (c ≤ (p.1 : ℚ)))).length = bp.length :=
  length_filter_partition bp (fun p => (p.1 : ℚ)) c

/-- The strict/non-strict y-threshold filters of the top and bottom
mass counts partition the pixel list. -/
theorem top_bottom_partition (bp : List (Nat × Nat)) (c : ℚ) :
    (bp.filter (fun p => decide ((p.2 : ℚ) < c))).length +
      (bp.filter (fun p => decide (c ≤ (p.2 : ℚ)))).length = bp.length :=
  length_filter_partition bp (fun p => (p.2 : ℚ)) c

/-- Claim C10: every signature produced by the extractor satisfies
leftHeavy + rightHeavy = 1 and topHeavy + bottomHeavy = 1 with each
fraction in [0, 1], in both the neutral and the computed branch, because
the left/right and top/bottom filters partition the foreground set. -/
theorem C10_mass_fractions_partition (bp : List (Nat × Nat)) :
    (signatureOfPixels bp).leftHeavy + (signatureOfPixels bp).rightHeavy = 1 ∧
    (signatureOfPixels bp).topHeavy + (signatureOfPixels bp).bottomHeavy = 1 ∧
    (0 ≤ (signatureOfPixels bp).leftHeavy ∧ (signatureOfPixels bp).leftHeavy ≤ 1) ∧
    (0 ≤ (signatureOfPixels bp).rightHeavy ∧ (signatureOfPixels bp).rightHeavy ≤ 1) ∧
    (0 ≤ (signatureOfPixels bp).topHeavy ∧ (signatureOfPixels bp).topHeavy ≤ 1) ∧
    (0 ≤ (signatureOfPixels bp).bottomHeavy ∧ (signatureOfPixels bp).bottomHeavy ≤ 1) := by
  by_cases h : bp.length < 80
  · rw [signatureOfPixels_neutral bp h]
    norm_num [neutralSignature]
  · have hpos : (0 : ℚ) < (bp.length : ℚ) := by
      have h80 : 80 ≤ bp.length := not_lt.mp h
      exact_mod_cast Nat.lt_of_lt_of_le (by norm_num) h80
    rw [signatureOfPixels_leftHeavy bp h, signatureOfPixels_rightHeavy bp h,
      signatureOfPixels_topHeavy bp h, signatureOfPixels_bottomHeavy bp h]
    refine ⟨?_, ?_, ⟨?_, ?_⟩, ⟨?_, ?_⟩, ⟨?_, ?_⟩, ⟨?_, ?_⟩⟩
    · rw [div_add_div_same, div_eq_one_iff_eq (ne_of_gt hpos)]
      exact_mod_cast left_right_partition bp (centerXOf bp)
    · rw [div_add_div_same, div_eq_one_iff_eq (ne_of_gt hpos)]
      exact_mod_cast top_bottom_partition bp (centerYOf bp)
    all_goals
      first
        | exact div_nonneg (by positivity) (le_of_lt hpos)
        | exact (div_le_one hpos).mpr (by exact_mod_cast List.length_filter_le _ bp)

/-- Claim C7: at or above the 80-pixel evidence floor the aspect ratio
of the signature is exactly boundingBoxWidth / boundingBoxHeight of the
foreground bounding box; below the floor it is 1 and every mass fraction
is 0.5. -/
theorem C7_aspect_exact_and_neutral (bp : List (Nat × Nat)) :
    (80 ≤ bp.length →
      (signatureOfPixels bp).aspectRat =
        (boundingBoxWidth bp : ℚ) / (boundingBoxHeight bp : ℚ)) ∧
    (bp.length < 80 →
      (signatureOfPixels bp).aspectRat = 1 ∧
      (signatureOfPixels bp).topHeavy = 0.5 ∧
      (signatureOfPixels bp).bottomHeavy = 0.5 ∧
      (signatureOfPixels bp).leftHeavy = 0.5 ∧
      (signatureOfPixels bp).rightHeavy = 0.5) := by
  constructor
  · intro h
    exact signatureOfPixels_aspect bp (not_lt.mpr h)
  · intro h
    rw [signatureOfPixels_neutral bp h]
    exact ⟨rfl, rfl, rfl, rfl, rfl⟩

/-- Witness for C7 at the concrete 10-wide, 8-tall foreground block. -/
theorem C7_witness :
    80 ≤ bpW.length ∧
    (signatureOfPixels bpW).aspectRat =
      (boundingBoxWidth bpW : ℚ) / (boundingBoxHeight bpW : ℚ) :=
  ⟨by decide, (C7_aspect_exact_and_neutral bpW).1 (by decide)⟩

/-- Claim C6, amended: above the evidence floor the centerHole flag is
true exactly when the count of foreground pixels in the axis-aligned
center square (both coordinate distances below centerRadius) is below
15 percent of the foreground count. The code tests a square, not the
Euclidean disc the claim describes. -/
theorem C6_center_hole_square_test (bp : List (Nat × Nat)) (h : 80 ≤ bp.length) :
    (signatureOfPixels bp).centerHole = true ↔
      (squareCenterCount bp : ℚ) < (bp.length : ℚ) * 0.15 := by
  rw [signatureOfPixels_centerHole bp (not_lt.mpr h)]
  exact decide_eq_true_iff

/-- Witness for the amended C6 at the concrete 100-pixel set bpC6. -/
theorem C6_witness :
    80 ≤ bpC6.length ∧
    ((signatureOfPixels bpC6).centerHole = true ↔
      (squareCenterCount bpC6 : ℚ) < (bpC6.length : ℚ) * 0.15) :=
  ⟨by decide, C6_center_hole_square_test bpC6 (by decide)⟩

/-- Counterexample to C6 as stated: on bpC6 (100 foreground pixels,
above the floor) the count inside the Euclidean center disc described by
the spec is 0, far below 15 percent of the total, so the claim demands
centerHole = true, yet the square test performed by the code counts 40
pixels there and leaves the flag false. -/
theorem C6_counterexample :
    bpC6.length = 100 ∧
    80 ≤ bpC6.length ∧
    centerDiscCountSpec bpC6 = 0 ∧
    (centerDiscCountSpec bpC6 : ℚ) < (bpC6.length : ℚ) * 0.15 ∧
    squareCenterCount bpC6 = 40 ∧
    (signatureOfPixels bpC6).centerHole = false := by
  refine ⟨by decide, by decide, by decide, by decide, by decide, by decide⟩

/-- On the neutral signature the decision tree lands in the balanced
no-hole branch and returns S whenever the Unknown gate does not fire. -/
theorem match_neutral_eq_S (n : Nat) (h : ¬ n < 50) :
    matchSignatureToLetter (neutralSignature n) = .S := by
  unfold matchSignatureToLetter
  simp only [neutralSignature]
  rw [if_neg h]
  norm_num

/-- Claim C3, amended: below the 80-pixel floor the extractor returns
the neutral signature, but the per-cell classification is Unknown only
below 50 foreground pixels; between 50 and 79 the neutral signature is
classified as S. -/
theorem C3_below_floor_neutral (cell : Image) :
    ((createLetterSignature cell).cyanPixels < 80 →
      createLetterSignature cell =
        neutralSignature (createLetterSignature cell).cyanPixels) ∧
    ((createLetterSignature cell).cyanPixels < 50 →
      detectCellLetterRaw cell = .unknown) ∧
    (50 ≤ (createLetterSignature cell).cyanPixels →
      (createLetterSignature cell).cyanPixels < 80 →
      detectCellLetterRaw cell = .S) := by
  have hcp : (createLetterSignature cell).cyanPixels = (brightPixelsOf cell).length :=
    signatureOfPixels_cyanPixels (brightPixelsOf cell)
  have hneu : (createLetterSignature cell).cyanPixels < 80 →
      createLetterSignature cell =
        neutralSignature (createLetterSignature cell).cyanPixels := by
    intro h
    rw [hcp] at h
    show signatureOfPixels (brightPixelsOf cell) = _
    rw [signatureOfPixels_neutral _ h, hcp]
  refine ⟨hneu, ?_, ?_⟩
  · intro h
    simp only [detectCellLetterRaw]
    rw [if_pos h]
  · intro h50 h80
    simp only [detectCellLetterRaw]
    rw [if_neg (not_lt.mpr h50), hneu h80]
    exact match_neutral_eq_S _ (not_lt.mpr h50)

/-- Counterexample to C3 as stated: cellImg60 has 60 foreground pixels,
below the neutral-signature floor of 80, so the extractor returns the
neutral signature, yet the classification is S rather than Unknown. -/
theorem C3_counterexample :
    createLetterSignature cellImg60 = neutralSignature 60 ∧
    (createLetterSignature cellImg60).cyanPixels < 80 ∧
    detectCellLetterRaw cellImg60 ≠ .unknown ∧
    detectCellLetterRaw cellImg60 = .S := by
  refine ⟨by decide, by decide, by decide, by decide⟩

/-- Witness for the amended C3 at cellImg60, whose foreground count 60
lies in the [50, 80) band. -/
theorem C3_witness :
    (50 ≤ (createLetterSignature cellImg60).cyanPixels ∧
      (createLetterSignature cellImg60).cyanPixels < 80) ∧
    detectCellLetterRaw cellImg60 = .S :=
  ⟨⟨by decide, by decide⟩,
    (C3_below_floor_neutral cellImg60).2.2 (by decide) (by decide)⟩

/-! ### Execution-order lemmas -/

/-- Every event emitted by execAux from index i carries an index at
least i, reproduces the letter at that position, is never Unknown, and
was emitted only after every cancellation check up to it read false. -/
theorem execAux_mem (flag : Nat → Bool) :
    ∀ (letters : List Letter) (i : Nat) (e : Nat × Letter),
      e ∈ (execAux flag letters i).1 →
        i ≤ e.1 ∧ letters.getD (e.1 - i) .unknown = e.2 ∧ e.2 ≠ .unknown ∧
          ∀ j, i ≤ j → j ≤ e.1 → flag j = false := by
  intro letters
  induction letters with
  | nil => intro i e he; simp [execAux] at he
  | cons l rest ih =>
    intro i e he
    by_cases hf : flag i
    · simp [execAux, hf] at he
    · have hff : flag i = false := by
        revert hf; cases flag i <;> simp
      by_cases hu : l = .unknown
      · rw [execAux, if_neg (by simp [hff]), if_pos hu] at he
        obtain ⟨h1, h2, h3, h4⟩ := ih (i + 1) e he
        refine ⟨by omega, ?_, h3, ?_⟩
        · have hs : e.1 - i = (e.1 - (i + 1)) + 1 := by omega
          rw [hs, List.getD_cons_succ]
          exact h2
        · intro j hij hje
          rcases Nat.eq_or_lt_of_le hij with hji | hji
          · rw [← hji]; exact hff
          · exact h4 j hji hje
      · rw [execAux, if_neg (by simp [hff]), if_neg hu] at he
        rcases List.mem_cons.mp he with hee | hee
        · subst hee
          refine ⟨Nat.le_refl i, by simp, hu, ?_⟩
          intro j hij hje
          have : j = i := Nat.le_antisymm hje hij
          rw [this]; exact hff
        · obtain ⟨h1, h2, h3, h4⟩ := ih (i + 1) e hee
          refine ⟨by omega, ?_, h3, ?_⟩
          · have hs : e.1 - i = (e.1 - (i + 1)) + 1 := by omega
            rw [hs, List.getD_cons_succ]
            exact h2
          · intro j hij hje
            rcases Nat.eq_or_lt_of_le hij with hji | hji
            · rw [← hji]; exact hff
            · exact h4 j hji hje

/-- The events emitted by execAux carry strictly increasing indices. -/
theorem execAux_pairwise (flag : Nat → Bool) :
    ∀ (letters : List Letter) (i : Nat),
      (execAux flag letters i).1.Pairwise (fun a b => a.1 < b.1) := by
  intro letters
  induction letters with
  | nil => intro i; simp [execAux]
  | cons l rest ih =>
    intro i
    by_cases hf : flag i
    · simp [execAux, hf]
    · have hff : flag i = false := by
        revert hf; cases flag i <;> simp
      by_cases hu : l = .unknown
      · rw [execAux, if_neg (by simp [hff]), if_pos hu]
        exact ih (i + 1)
      · rw [execAux, if_neg (by simp [hff]), if_neg hu]
        refine List.Pairwise.cons ?_ (ih (i + 1))
        intro e he
        have h1 := (execAux_mem flag rest (i + 1) e he).1
        omega

/-- Position k of the remaining letters is pressed by execAux running
from absolute index i0: every cancellation check up to it reads false
and the letter at k is not Unknown. -/
def pressedFrom (flag : Nat → Bool) (letters : List Letter) (i0 k : Nat) : Bool :=
  decide (∀ j, j ≤ k → flag (i0 + j) = false) &&
  decide (letters.getD k .unknown ≠ .unknown)

/-- Exact characterization of the events emitted by execAux: position k
is emitted, as (i0 + k, its letter), exactly when it is pressed in the
sense of pressedFrom, in increasing position order. -/
theorem execAux_events_eq (flag : Nat → Bool) :
    ∀ (letters : List Letter) (i0 : Nat),
      (execAux flag letters i0).1 =
        ((List.range letters.length).filter (pressedFrom flag letters i0)).map
          (fun k => (i0 + k, letters.getD k .unknown)) := by
  intro letters
  induction letters with
  | nil => intro i0; rfl
  | cons l rest ih =>
    intro i0
    by_cases hf : flag i0 = true
    · rw [execAux, if_pos hf]
      have hnil : (List.range (l :: rest).length).filter
          (pressedFrom flag (l :: rest) i0) = [] := by
        rw [List.filter_eq_nil_iff]
        intro k _
        simp only [pressedFrom, Bool.and_eq_true, decide_eq_true_eq, not_and]
        intro hall
        have h0 := hall 0 (Nat.zero_le k)
        rw [Nat.add_zero] at h0
        rw [hf] at h0
        exact absurd h0 (by simp)
      rw [hnil]
      rfl
    · have hff : flag i0 = false := by
        revert hf; cases flag i0 <;> simp
      have htail : ((List.range rest.length).map Nat.succ).filter
            (pressedFrom flag (l :: rest) i0) =
          ((List.range rest.length).filter (pressedFrom flag rest (i0 + 1))).map
            Nat.succ := by
        rw [List.filter_map]
        congr 1
        apply List.filter_congr
        intro k _
        simp only [Function.comp_apply, pressedFrom, List.getD_cons_succ]
        congr 1
        apply decide_eq_decide.mpr
        constructor
        · intro hall j hj
          have h1 := hall (j + 1) (Nat.succ_le_succ hj)
          have h2 : i0 + (j + 1) = i0 + 1 + j := by omega
          rw [h2] at h1
          exact h1
        · intro hall j hj
          cases j with
          | zero => rw [Nat.add_zero]; exact hff
          | succ j2 =>
            have h1 := hall j2 (Nat.le_of_succ_le_succ hj)
            have h2 : i0 + (j2 + 1) = i0 + 1 + j2 := by omega
            rw [h2]
            exact h1
      by_cases hu : l = .unknown
      · rw [execAux, if_neg (by rw [hff]; exact Bool.false_ne_true), if_pos hu,
          ih (i0 + 1)]
        have hp0 : pressedFrom flag (l :: rest) i0 0 = false := by
          simp [pressedFrom, hu]
        rw [List.length_cons, List.range_succ_eq_map, List.filter_cons, hp0]
        simp only [Bool.false_eq_true, if_false]
        rw [htail, List.map_map]
        apply List.map_congr_left
        intro k _
        simp only [Function.comp_apply, List.getD_cons_succ]
        congr 1
        omega
      · rw [execAux, if_neg (by rw [hff]; exact Bool.false_ne_true), if_neg hu]
        have hp0 : pressedFrom flag (l :: rest) i0 0 = true := by
          simp only [pressedFrom, Bool.and_eq_true, decide_eq_true_eq,
            List.getD_cons_zero]
          refine ⟨?_, hu⟩
          intro j hj
          have hj0 : j = 0 := Nat.le_zero.mp hj
          rw [hj0, Nat.add_zero]
          exact hff
        rw [List.length_cons, List.range_succ_eq_map, List.filter_cons, hp0]
        simp only [if_true]
        rw [List.map_cons, htail, List.map_map]
        show ((i0, l) :: (execAux flag rest (i0 + 1)).1) = _
        rw [ih (i0 + 1)]
        congr 1
        apply List.map_congr_left
        intro k _
        simp only [Function.comp_apply, List.getD_cons_succ]
        congr 1
        omega

/-- The event list of executeKeySequence is exactly the increasing
enumeration of the positions whose cancellation checks all read false
and whose letter is not Unknown, each paired with its letter. -/
theorem executeKeySequence_events_eq (letters : List Letter) (flag : Nat → Bool) :
    (executeKeySequence letters flag).1 =
      ((List.range letters.length).filter (fun i =>
        decide (∀ j, j ≤ i → flag j = false) &&
        decide (letters.getD i .unknown ≠ .unknown))).map
        (fun i => (i, letters.getD i .unknown)) := by
  rw [executeKeySequence, execAux_events_eq flag letters 0]
  have hfun : (fun k => (0 + k, letters.getD k Letter.unknown)) =
      (fun i : Nat => (i, letters.getD i Letter.unknown)) := by
    funext k
    rw [Nat.zero_add]
  rw [hfun]
  congr 1
  apply List.filter_congr
  intro k _
  simp only [pressedFrom]
  congr 1
  apply decide_eq_decide.mpr
  constructor
  · intro hall j hj
    have h1 := hall j hj
    rwa [Nat.zero_add] at h1
  · intro hall j hj
    rw [Nat.zero_add]
    exact hall j hj

/-- Completeness of emission: every in-range position whose checks all
read false and whose letter is not Unknown is actually pressed. -/
theorem executeKeySequence_complete (letters : List Letter) (flag : Nat → Bool)
    (i : Nat) (hi : i < letters.length)
    (hflag : ∀ j, j ≤ i → flag j = false)
    (hl : letters.getD i .unknown ≠ .unknown) :
    (i, letters.getD i .unknown) ∈ (executeKeySequence letters flag).1 := by
  rw [executeKeySequence_events_eq]
  apply List.mem_map.mpr
  refine ⟨i, ?_, rfl⟩
  apply List.mem_filter.mpr
  refine ⟨List.mem_range.mpr hi, ?_⟩
  simp only [Bool.and_eq_true, decide_eq_true_eq]
  exact ⟨hflag, hl⟩

/-- Claim C4: the events emitted by executeKeySequence are exactly the
positions, in increasing row-major index order (the enumeration of
rowMajorOrder), whose every cancellation check up to them read false
and whose letter is not Unknown. Hence Unknown positions are skipped
without being pressed, every other position before an observed
cancellation is pressed with its detected letter, and no key is emitted
at or after a position whose cancellation check read true. -/
theorem C4_row_major_complete_skip_cancel (letters : List Letter) (flag : Nat → Bool) :
    rowMajorOrder =
      [(0, 0), (0, 1), (0, 2), (1, 0), (1, 1), (1, 2), (2, 0), (2, 1), (2, 2)] ∧
    (executeKeySequence letters flag).1 =
      ((List.range letters.length).filter (fun i =>
        decide (∀ j, j ≤ i → flag j = false) &&
        decide (letters.getD i .unknown ≠ .unknown))).map
        (fun i => (i, letters.getD i .unknown)) ∧
    (executeKeySequence letters flag).1.Pairwise (fun a b => a.1 < b.1) ∧
    (∀ i, i < letters.length → (∀ j, j ≤ i → flag j = false) →
      letters.getD i .unknown ≠ .unknown →
      (i, letters.getD i .unknown) ∈ (executeKeySequence letters flag).1) ∧
    (∀ e, e ∈ (executeKeySequence letters flag).1 →
      letters.getD e.1 .unknown = e.2 ∧ e.2 ≠ .unknown ∧
        ∀ j, j ≤ e.1 → flag j = false) := by
  refine ⟨by decide, executeKeySequence_events_eq letters flag,
    execAux_pairwise flag letters 0, executeKeySequence_complete letters flag, ?_⟩
  intro e he
  obtain ⟨h1, h2, h3, h4⟩ := execAux_mem flag letters 0 e he
  exact ⟨by simpa using h2, h3, fun j hj => h4 j (Nat.zero_le j) hj⟩

/-- A three-letter sequence with an Unknown in the middle and a flag
that reads true from check 2 on. -/
def letters0 : List Letter := [.Q, .unknown, .W]

/-- Flag observed set at every check from index 2 on. -/
def flag0 : Nat → Bool := fun i => decide (2 ≤ i)

/-- Witness for C4: on letters0/flag0 position 0 is eligible (in range,
no set check up to it, letter not Unknown), and the theorem yields that
its key event is emitted. -/
theorem C4_witness :
    (0 < letters0.length ∧ (∀ j, j ≤ 0 → flag0 j = false) ∧
      letters0.getD 0 .unknown ≠ .unknown) ∧
    (0, Letter.Q) ∈ (executeKeySequence letters0 flag0).1 := by
  have h := (C4_row_major_complete_skip_cancel letters0 flag0).2.2.2.1 0 (by decide)
    (by decide) (by decide)
  exact ⟨⟨by decide, by decide, by decide⟩, h⟩

/-- Claim C5, counterexample to the claim as stated: with the flag set
after three keys the run throws out of executeKeySequence, and the
catch block of the session reports terminal status error, not a Cancelled
state distinct from error. -/
theorem C5_counterexample :
    startSolver cfgSmall frameCyanAll flagAfter3 =
      .errorStopped [(0, .S), (1, .S), (2, .S)] ∧
    finalStatus (startSolver cfgSmall frameCyanAll flagAfter3) = .error ∧
    Status.error ≠ Status.stopped := by
  have h : startSolver cfgSmall frameCyanAll flagAfter3 =
      .errorStopped [(0, .S), (1, .S), (2, .S)] := by decide
  exact ⟨h, by rw [h]; rfl, by decide⟩

/-- Claim C5, amended: an observed cancellation aborts the run with the
already-emitted keys intact (they are not undone), and this outcome is
surfaced through the catch block as terminal status error. -/
theorem C5_cancellation_reported_as_error (cfg : Config) (frame : Image)
    (flag : Nat → Bool) (letters : List Letter)
    (hdet : detectLetters cfg frame = some letters)
    (hcount : ¬ (letters.filter (fun l => l = .unknown)).length > 5)
    (hstop : (executeKeySequence letters flag).2 = true) :
    startSolver cfg frame flag =
      .errorStopped (executeKeySequence letters flag).1 ∧
    finalStatus (startSolver cfg frame flag) = .error ∧
    emittedKeys (startSolver cfg frame flag) =
      (executeKeySequence letters flag).1 := by
  have hrun : startSolver cfg frame flag =
      .errorStopped (executeKeySequence letters flag).1 := by
    simp only [startSolver, hdet]
    rw [if_neg hcount, if_pos hstop]
  exact ⟨hrun, by rw [hrun]; rfl, by rw [hrun]; rfl⟩

/-- Witness for the amended C5 at the all-cyan frame and the
flag-after-3 cancellation. -/
theorem C5_witness :
    detectLetters cfgSmall frameCyanAll = some (List.replicate 9 .S) ∧
    ¬ ((List.replicate 9 Letter.S).filter (fun l => l = .unknown)).length > 5 ∧
    (executeKeySequence (List.replicate 9 .S) flagAfter3).2 = true ∧
    startSolver cfgSmall frameCyanAll flagAfter3 =
      .errorStopped (executeKeySequence (List.replicate 9 .S) flagAfter3).1 := by
  have hdet : detectLetters cfgSmall frameCyanAll = some (List.replicate 9 .S) := by
    decide
  have hc : ¬ ((List.replicate 9 Letter.S).filter (fun l => l = .unknown)).length > 5 := by
    decide
  have hs : (executeKeySequence (List.replicate 9 .S) flagAfter3).2 = true := by decide
  exact ⟨hdet, hc, hs,
    (C5_cancellation_reported_as_error cfgSmall frameCyanAll flagAfter3
      (List.replicate 9 .S) hdet hc hs).1⟩

/-- Claim C2: a detected grid with more than 5 Unknown cells makes the
session throw before the executing phase, surfacing the Unknown count,
with terminal status error and no key emitted. -/
theorem C2_unknown_ceiling_aborts (cfg : Config) (frame : Image) (flag : Nat → Bool)
    (letters : List Letter)
    (hdet : detectLetters cfg frame = some letters)
    (hcount : (letters.filter (fun l => l = .unknown)).length > 5) :
    startSolver cfg frame flag =
      .errorTooManyUnknown (letters.filter (fun l => l = .unknown)).length ∧
    finalStatus (startSolver cfg frame flag) = .error ∧
    emittedKeys (startSolver cfg frame flag) = [] := by
  have hrun : startSolver cfg frame flag =
      .errorTooManyUnknown (letters.filter (fun l => l = .unknown)).length := by
    simp only [startSolver, hdet]
    rw [if_pos hcount]
  exact ⟨hrun, by rw [hrun]; rfl, by rw [hrun]; rfl⟩

/-- Witness for C2 at the frame whose grid detects 3 S cells and 6
Unknown cells. -/
theorem C2_witness :
    detectLetters cfgSmall frameTopCyan = some letters6 ∧
    (letters6.filter (fun l => l = .unknown)).length > 5 ∧
    startSolver cfgSmall frameTopCyan flagNever = .errorTooManyUnknown 6 ∧
    finalStatus (startSolver cfgSmall frameTopCyan flagNever) = .error ∧
    emittedKeys (startSolver cfgSmall frameTopCyan flagNever) = [] := by
  have hdet : detectLetters cfgSmall frameTopCyan = some letters6 := by decide
  have hc : (letters6.filter (fun l => l = .unknown)).length > 5 := by decide
  have h := C2_unknown_ceiling_aborts cfgSmall frameTopCyan flagNever letters6 hdet hc
  exact ⟨hdet, hc, h.1, h.2.1, h.2.2⟩

/-- Claim C1, amended: the presence verdict is computed and then
ignored (the abort on a negative verdict is commented out in
startSolver), so the whole run behaves exactly as if the validator were
never consulted. -/
theorem C1_presence_verdict_ignored (cfg : Config) (frame : Image) (flag : Nat → Bool) :
    startSolver cfg frame flag = solverAfterPresence cfg frame flag := rfl

/-- Counterexample to C1 as stated: on the all-cyan frame the validator
reports the puzzle absent, yet the session performs full cell detection,
enters execution, emits all nine keys and completes without error. -/
theorem C1_counterexample :
    validateMinigamePresent cfgSmall frameCyanAll = false ∧
    startSolver cfgSmall frameCyanAll flagNever =
      .complete [(0, .S), (1, .S), (2, .S), (3, .S), (4, .S),
        (5, .S), (6, .S), (7, .S), (8, .S)] ∧
    (emittedKeys (startSolver cfgSmall frameCyanAll flagNever)).length = 9 ∧
    finalStatus (startSolver cfgSmall frameCyanAll flagNever) ≠ .error := by
  have h : startSolver cfgSmall frameCyanAll flagNever =
      .complete [(0, .S), (1, .S), (2, .S), (3, .S), (4, .S),
        (5, .S), (6, .S), (7, .S), (8, .S)] := by decide
  refine ⟨by decide, h, by rw [h]; rfl, by rw [h]; decide⟩

/-- The correction-map variant of detectCellLetter is exactly the raw
classification followed by the letterMap (the early Unknown return is
untouched by the map, which has no entry for Unknown). -/
theorem detectCell_corrected_eq (cell : Image) :
    detectCellLetterCorrected cell = applyCorrection (detectCellLetterRaw cell) := by
  simp only [detectCellLetterCorrected, detectCellLetterRaw]
  by_cases h : (createLetterSignature cell).cyanPixels < 50
  · simp only [if_pos h]
    rfl
  · simp only [if_neg h]

/-- Mapping a pure function over each element after a monadic Option
map commutes with mapping it over the collected result. -/
theorem mapM_option_map {α β γ : Type} (f : α → Option β) (g : β → γ) :
    ∀ l : List α,
      l.mapM (fun a => (f a).map g) = (l.mapM f).map (fun bs => bs.map g) := by
  intro l
  induction l with
  | nil => rfl
  | cons a t ih =>
    rw [List.mapM_cons, List.mapM_cons, ih]
    cases hfa : f a with
    | none => rfl
    | some b =>
      cases hmt : t.mapM f with
      | none => rfl
      | some bs => rfl

/-- Claim C8: the correction map is applied to the raw classifier
output of every cell of the grid, and symbols with no mapping entry,
including E, R and Unknown, pass through unchanged. -/
theorem C8_correction_map_uniform (cfg : Config) (frame : Image) :
    detectLettersCorrected cfg frame =
      (detectLetters cfg frame).map (fun ls => ls.map applyCorrection) ∧
    (∀ cell, detectCellLetterCorrected cell = applyCorrection (detectCellLetterRaw cell)) ∧
    applyCorrection .A = .D ∧ applyCorrection .S = .A ∧ applyCorrection .D = .E ∧
    applyCorrection .Q = .R ∧ applyCorrection .W = .W ∧ applyCorrection .E = .E ∧
    applyCorrection .R = .R ∧ applyCorrection .unknown = .unknown := by
  refine ⟨?_, detectCell_corrected_eq, rfl, rfl, rfl, rfl, rfl, rfl, rfl, rfl⟩
  simp only [detectLettersCorrected, detectLetters]
  have hfun : detectCellLetterCorrected = applyCorrection ∘ detectCellLetterRaw :=
    funext detectCell_corrected_eq
  have hstep : (fun rc : Nat × Nat =>
        (captureSingleCell cfg frame rc.1 rc.2 (getTopLeftCellPosition cfg)).map
          detectCellLetterCorrected) =
      (fun rc : Nat × Nat =>
        ((captureSingleCell cfg frame rc.1 rc.2 (getTopLeftCellPosition cfg)).map
          detectCellLetterRaw).map applyCorrection) := by
    funext rc
    rw [hfun, Option.map_map]
  rw [hstep]
  exact mapM_option_map
    (fun rc : Nat × Nat =>
      (captureSingleCell cfg frame rc.1 rc.2 (getTopLeftCellPosition cfg)).map
        detectCellLetterRaw)
    applyCorrection rowMajorOrder

/-- Claim C9: updateConfig tests the supplied offsets for JavaScript
truthiness, so an explicit offset of 0 alongside a resolution change is
replaced by the preset value (-144 for 2560x1440), while any non-zero
offset in the same call is kept. -/
theorem C9_zero_offset_replaced_by_preset (cfg : Config) (v : Int) :
    (updateConfig cfg { resolution := some .r2560x1440, offsetX := some 0 }).offsetX
      = -144 ∧
    (v ≠ 0 →
      (updateConfig cfg { resolution := some .r2560x1440, offsetX := some v }).offsetX
        = v) := by
  constructor
  · rfl
  · intro hv
    simp [updateConfig, RESOLUTION_CONFIGS, truthyInt, hv]

/-- Witness for C9 with the non-zero offset 3. -/
theorem C9_witness :
    (3 : Int) ≠ 0 ∧
    (updateConfig defaultConfig
      { resolution := some .r2560x1440, offsetX := some 3 }).offsetX = 3 :=
  ⟨by decide, (C9_zero_offset_replaced_by_preset defaultConfig 3).2 (by decide)⟩

end MHSolver
